import Mathlib

/-!
# ZeroClaw plugin-manifest core: shallow embedding and verification

This file embeds `src/hardware/manifest.rs` of the ZeroClaw repository:
the `tool.toml` plugin-manifest data model (`ToolManifest`, `ToolMeta`,
`ExecConfig`, `TransportConfig`, `ParameterDef`) together with the
serde-derive deserialization semantics those structs get from
`#[derive(Deserialize)]` (no `deny_unknown_fields`, an `Option` field for
`transport`, `#[serde(default)]` on `parameters`).

Deserialization is modelled over an abstract TOML value tree (`Value`):
the textual grammar is out of scope, the field-lookup semantics of the
derived deserializers is embedded faithfully.

The Manifest Loader/Validator's semantic checks, the Schema Projector
and the Argument Normalizer are described by the specification but are
not present in the given source file (only the data declarations are);
they are modelled from the spec below, each marked `Modelled from the
spec:` in its doc comment.
-/

/-- A TOML value, as seen by the derived deserializers.  `serde_json::Value`
defaults in `ParameterDef.default` are kept in this same tree. -/
inductive Value where
  | str (s : String)
  | int (n : Int)
  | bool (b : Bool)
  | arr (vs : List Value)
  | table (kvs : List (String × Value))

/-- Key lookup in a TOML table (first match). -/
def tget : List (String × Value) → String → Option Value
  | [], _ => none
  | (k, v) :: rest, key => if k = key then some v else tget rest key

/-- `ToolMeta` — tool identity metadata (`[tool]` block). -/
structure ToolMeta where
  name : String
  version : String
  description : String

/-- `ExecConfig` — how ZeroClaw spawns the tool (`[exec]` block). -/
structure ExecConfig where
  binary : String

/-- `TransportConfig` — optional transport hint (`[transport]` block). -/
structure TransportConfig where
  preferred : String
  device_required : Bool

/-- `ParameterDef` — a single parameter definition (`[[parameters]]` block).
The Rust field `r#type` is `type` here; `default` is an optional
`serde_json::Value`, kept as an optional `Value`. -/
structure ParameterDef where
  name : String
  type : String
  description : String
  required : Bool
  default : Option Value

/-- `ToolManifest` — the full plugin manifest parsed from `tool.toml`. -/
structure ToolManifest where
  tool : ToolMeta
  exec : ExecConfig
  transport : Option TransportConfig
  parameters : List ParameterDef

/-- Deserialize a mandatory string field, as serde does for a `String`
struct field: present and a TOML string, or an error. -/
def reqStr (kvs : List (String × Value)) (key : String) : Except String String :=
  match tget kvs key with
  | some (.str s) => .ok s
  | some _ => .error (key ++ ": invalid type, expected a string")
  | none => .error ("missing field " ++ key)

/-- Deserialize a mandatory boolean field. -/
def reqBool (kvs : List (String × Value)) (key : String) : Except String Bool :=
  match tget kvs key with
  | some (.bool b) => .ok b
  | some _ => .error (key ++ ": invalid type, expected a boolean")
  | none => .error ("missing field " ++ key)

/-- Derived deserializer for `ToolMeta`: all three fields mandatory,
unknown keys ignored. -/
def ToolMeta.deserialize : Value → Except String ToolMeta
  | .table kvs =>
    match reqStr kvs "name", reqStr kvs "version", reqStr kvs "description" with
    | .ok n, .ok v, .ok d => .ok ⟨n, v, d⟩
    | .error e, _, _ => .error e
    | _, .error e, _ => .error e
    | _, _, .error e => .error e
  | _ => .error "tool: invalid type, expected a table"

/-- Derived deserializer for `ExecConfig`: `binary` mandatory. -/
def ExecConfig.deserialize : Value → Except String ExecConfig
  | .table kvs =>
    match reqStr kvs "binary" with
    | .ok b => .ok ⟨b⟩
    | .error e => .error e
  | _ => .error "exec: invalid type, expected a table"

/-- Derived deserializer for `TransportConfig`: both `preferred` and
`device_required` mandatory. -/
def TransportConfig.deserialize : Value → Except String TransportConfig
  | .table kvs =>
    match reqStr kvs "preferred", reqBool kvs "device_required" with
    | .ok p, .ok d => .ok ⟨p, d⟩
    | .error e, _ => .error e
    | _, .error e => .error e
  | _ => .error "transport: invalid type, expected a table"

/-- Derived deserializer for `ParameterDef`: `name`, `type`, `description`,
`required` mandatory; `default` is `Option<serde_json::Value>`, so any
present value is accepted as-is and an absent key yields `none`. -/
def ParameterDef.deserialize : Value → Except String ParameterDef
  | .table kvs =>
    match reqStr kvs "name", reqStr kvs "type", reqStr kvs "description",
          reqBool kvs "required" with
    | .ok n, .ok t, .ok d, .ok r => .ok ⟨n, t, d, r, tget kvs "default"⟩
    | .error e, _, _, _ => .error e
    | _, .error e, _, _ => .error e
    | _, _, .error e, _ => .error e
    | _, _, _, .error e => .error e
  | _ => .error "parameters: invalid type, expected a table"

/-- Deserialize the elements of a `[[parameters]]` array in order. -/
def deserializeParams : List Value → Except String (List ParameterDef)
  | [] => .ok []
  | v :: vs =>
    match ParameterDef.deserialize v, deserializeParams vs with
    | .ok p, .ok ps => .ok (p :: ps)
    | .error e, _ => .error e
    | _, .error e => .error e

/-- The mandatory `tool` field of `ToolManifest`. -/
def toolField (kvs : List (String × Value)) : Except String ToolMeta :=
  match tget kvs "tool" with
  | some v => ToolMeta.deserialize v
  | none => .error "missing field tool"

/-- The mandatory `exec` field of `ToolManifest`. -/
def execField (kvs : List (String × Value)) : Except String ExecConfig :=
  match tget kvs "exec" with
  | some v => ExecConfig.deserialize v
  | none => .error "missing field exec"

/-- The `transport` field of type `Option<TransportConfig>`: an absent key
yields `none`, a present key must deserialize as a `TransportConfig`. -/
def transportField (kvs : List (String × Value)) :
    Except String (Option TransportConfig) :=
  match tget kvs "transport" with
  | some v =>
    match TransportConfig.deserialize v with
    | .ok t => .ok (some t)
    | .error e => .error e
  | none => .ok none

/-- The `parameters` field with `#[serde(default)]`: an absent key yields
the empty list, a present key must be an array of parameter tables. -/
def paramsField (kvs : List (String × Value)) : Except String (List ParameterDef) :=
  match tget kvs "parameters" with
  | some (.arr vs) => deserializeParams vs
  | some _ => .error "parameters: invalid type, expected an array"
  | none => .ok []

/-- Derived deserializer for `ToolManifest`: `tool` and `exec` mandatory,
`transport` optional, `parameters` defaulted; unknown keys ignored. -/
def ToolManifest.deserialize : Value → Except String ToolManifest
  | .table kvs =>
    match toolField kvs, execField kvs, transportField kvs, paramsField kvs with
    | .ok t, .ok e, .ok tr, .ok ps => .ok ⟨t, e, tr, ps⟩
    | .error e, _, _, _ => .error e
    | _, .error e, _, _ => .error e
    | _, _, .error e, _ => .error e
    | _, _, _, .error e => .error e
  | _ => .error "invalid type, expected a table"

/-- The closed type enumeration of parameter types (spec section 3). -/
def allowedTypes : List String := ["string", "integer", "boolean"]

/-- Does a value have the shape of the declared primitive type tag? -/
def valueMatchesType (ty : String) : Value → Bool
  | .str _ => ty = "string"
  | .int _ => ty = "integer"
  | .bool _ => ty = "boolean"
  | _ => false

/-- Validation failures of a structurally parseable manifest, each naming
the offending parameter (spec sections 4.1 and 7). -/
inductive ValidationError where
  | unknownType (param : String) (typeVal : String)
  | defaultMismatch (param : String) (typeVal : String)
  | requiredWithDefault (param : String)
  | duplicateName (param : String)

/-- First parameter whose `type` is outside the closed enumeration. -/
def findBadType (ps : List ParameterDef) : Option ParameterDef :=
  ps.find? (fun p => !(allowedTypes.contains p.type))

/-- First parameter whose declared `default` does not match its `type`. -/
def findBadDefault (ps : List ParameterDef) : Option ParameterDef :=
  ps.find? (fun p => match p.default with
    | some d => !(valueMatchesType p.type d)
    | none => false)

/-- First parameter that is `required` yet carries a `default`. -/
def findRequiredWithDefault (ps : List ParameterDef) : Option ParameterDef :=
  ps.find? (fun p => p.required && p.default.isSome)

/-- First name that repeats an earlier one, scanning left to right with
the set of already-seen names. -/
def firstDupFrom (seen : List String) : List String → Option String
  | [] => none
  | n :: rest => if seen.contains n then some n else firstDupFrom (n :: seen) rest

/-- First duplicate parameter name, in scan order. -/
def firstDuplicate (names : List String) : Option String :=
  firstDupFrom [] names

/-- Modelled from the spec: the Manifest Loader/Validator's semantic checks
(spec section 4.1 steps 3 to 6), absent from the given source file, which
holds only the data declarations.  Checks, in the spec's listed order:
type-tag validity (naming parameter and bad value), default/type shape,
required+default co-presence, and parameter-name uniqueness after full
parse (first duplicate found is named). -/
def validateManifest (m : ToolManifest) : Except ValidationError ToolManifest :=
  match findBadType m.parameters with
  | some p => .error (.unknownType p.name p.type)
  | none =>
    match findBadDefault m.parameters with
    | some p => .error (.defaultMismatch p.name p.type)
    | none =>
      match findRequiredWithDefault m.parameters with
      | some p => .error (.requiredWithDefault p.name)
      | none =>
        match firstDuplicate (m.parameters.map (fun p => p.name)) with
        | some n => .error (.duplicateName n)
        | none => .ok m

/-- A load failure: either a structural parse error (serde message) or a
semantic validation error (spec section 7 taxonomy). -/
inductive LoadError where
  | parse (msg : String)
  | validation (e : ValidationError)

/-- Modelled from the spec: loading = structural parse into the manifest
data model (embedded from the source structs) followed by the semantic
validation pass (spec section 4.1). -/
def loadManifest (v : Value) : Except LoadError ToolManifest :=
  match ToolManifest.deserialize v with
  | .error msg => .error (.parse msg)
  | .ok m =>
    match validateManifest m with
    | .error e => .error (.validation e)
    | .ok m => .ok m

/-- One property of the projected JSON-Schema object. -/
structure PropertySchema where
  type : String
  description : String

/-- The JSON-Schema-shaped object handed to the model's function-calling
interface: named-property map plus required-name list. -/
structure ToolSchema where
  properties : List (String × PropertySchema)
  required : List String

/-- One step of the Schema Projector: add a parameter to the property map
and, when it is required, append its name to the required-name list. -/
def projectStep (acc : ToolSchema) (p : ParameterDef) : ToolSchema :=
  { properties := acc.properties ++ [(p.name, ⟨p.type, p.description⟩)]
    required := if p.required then acc.required ++ [p.name] else acc.required }

/-- Modelled from the spec: the Schema Projector (spec section 4.2), absent
from the given source file.  One pass over the parameter list in declared
order. -/
def projectSchema (m : ToolManifest) : ToolSchema :=
  m.parameters.foldl projectStep ⟨[], []⟩

/-- Call-time argument failures (spec sections 4.3 and 7). -/
inductive ArgError where
  | missingRequired (param : String)
  | typeMismatch (param : String) (expected : String) (actual : Value)
  | unknownParameter (param : String)

/-- Normalize the declared parameters against the caller's argument map:
missing required fails, missing optional takes its default or is omitted,
present values must match the declared type. -/
def normalizeParams (args : List (String × Value)) :
    List ParameterDef → Except ArgError (List (String × Value))
  | [] => .ok []
  | p :: ps =>
    match tget args p.name with
    | none =>
      if p.required then .error (.missingRequired p.name)
      else
        match p.default with
        | some d =>
          match normalizeParams args ps with
          | .ok res => .ok ((p.name, d) :: res)
          | .error e => .error e
        | none => normalizeParams args ps
    | some v =>
      if valueMatchesType p.type v then
        match normalizeParams args ps with
        | .ok res => .ok ((p.name, v) :: res)
        | .error e => .error e
      else .error (.typeMismatch p.name p.type v)

/-- Modelled from the spec: the Argument Normalizer (spec section 4.3),
absent from the given source file.  Rejects caller keys not declared in
the manifest, then walks the declared parameters applying presence,
default and type rules. -/
def normalizeArgs (m : ToolManifest) (args : List (String × Value)) :
    Except ArgError (List (String × Value)) :=
  match args.find? (fun kv => !(m.parameters.any (fun p => p.name = kv.1))) with
  | some kv => .error (.unknownParameter kv.1)
  | none => normalizeParams args m.parameters

/-- One declared parameter is satisfied by the caller's argument map:
absent only when optional, present only with a matching value shape. -/
def paramArgOk (args : List (String × Value)) (p : ParameterDef) : Bool :=
  match tget args p.name with
  | none => !p.required
  | some v => valueMatchesType p.type v

/-- The caller's argument map satisfies every declared parameter and
brings no key outside the declared parameter set. -/
def argsCompatible (ps : List ParameterDef) (args : List (String × Value)) : Bool :=
  ps.all (paramArgOk args) && args.all (fun kv => ps.any (fun p => p.name = kv.1))

/-- The `[tool]` block of the `noop` test manifest from the source tests. -/
def noopToolKvs : List (String × Value) :=
  [("name", .str "noop"), ("version", .str "0.1.0"),
   ("description", .str "No-op tool")]

/-- The `[exec]` block of the `noop` test manifest. -/
def noopExecKvs : List (String × Value) := [("binary", .str "noop")]

/-- The top-level table of the `noop` test manifest: only `[tool]` and
`[exec]`, no transport, no parameters. -/
def noopKvs : List (String × Value) :=
  [("tool", .table noopToolKvs), ("exec", .table noopExecKvs)]

/-- Parsed identity of the `noop` manifest. -/
def noopMeta : ToolMeta := ⟨"noop", "0.1.0", "No-op tool"⟩

/-- Parsed exec block of the `noop` manifest. -/
def noopExec : ExecConfig := ⟨"noop"⟩

/-- Parsed `noop` manifest. -/
def noopManifest : ToolManifest := ⟨noopMeta, noopExec, none, []⟩

/-- A `[[parameters]]` table with no default. -/
def mkParamKvs (n ty : String) (req : Bool) : List (String × Value) :=
  [("name", .str n), ("type", .str ty), ("description", .str "d"),
   ("required", .bool req)]

/-- A `[[parameters]]` table carrying a default. -/
def mkParamDefKvs (n ty : String) (req : Bool) (d : Value) : List (String × Value) :=
  mkParamKvs n ty req ++ [("default", d)]

/-- A top-level manifest table with the `noop` identity/exec blocks and the
given parameter tables. -/
def mkManifestV (ps : List Value) : Value :=
  .table (noopKvs ++ [("parameters", .arr ps)])

/-- A parsed parameter with description `"d"`. -/
def mkParam (n ty : String) (req : Bool) (d : Option Value) : ParameterDef :=
  ⟨n, ty, "d", req, d⟩

/-- A parsed manifest with the `noop` identity/exec and the given
parameters. -/
def mkManifest (ps : List ParameterDef) : ToolManifest :=
  ⟨noopMeta, noopExec, none, ps⟩

/-- A `[transport]` block with both fields, as in the source tests. -/
def serialTransportKvs : List (String × Value) :=
  [("preferred", .str "serial"), ("device_required", .bool true)]

theorem tget_nil (key : String) : tget [] key = none := rfl

theorem tget_cons (k : String) (v : Value) (rest : List (String × Value))
    (key : String) :
    tget ((k, v) :: rest) key = if k = key then some v else tget rest key := rfl

theorem tget_cons_ne {k key : String} (v : Value) (rest : List (String × Value))
    (h : k ≠ key) : tget ((k, v) :: rest) key = tget rest key := by
  simp [tget, h]

theorem reqStr_none {kvs : List (String × Value)} {key : String}
    (h : tget kvs key = none) :
    reqStr kvs key = .error ("missing field " ++ key) := by
  simp [reqStr, h]

theorem reqBool_none {kvs : List (String × Value)} {key : String}
    (h : tget kvs key = none) :
    reqBool kvs key = .error ("missing field " ++ key) := by
  simp [reqBool, h]

/-- A successful validation passes all four checks and returns the
manifest unchanged. -/
theorem validateManifest_ok {m m' : ToolManifest}
    (h : validateManifest m = .ok m') :
    m' = m ∧ findBadType m.parameters = none ∧
      findBadDefault m.parameters = none ∧
      findRequiredWithDefault m.parameters = none ∧
      firstDuplicate (m.parameters.map (fun p => p.name)) = none := by
  unfold validateManifest at h
  split at h
  · exact Except.noConfusion h
  · split at h
    · exact Except.noConfusion h
    · split at h
      · exact Except.noConfusion h
      · split at h
        · exact Except.noConfusion h
        · refine ⟨(Except.ok.inj h).symm, ?_, ?_, ?_, ?_⟩ <;> assumption

/-- A dup-free scan means no scanned name was seen before and the names
are pairwise distinct. -/
theorem firstDupFrom_none :
    ∀ (names : List String) (seen : List String),
      firstDupFrom seen names = none →
      (∀ n ∈ names, n ∉ seen) ∧ names.Nodup := by
  intro names
  induction names with
  | nil => intro seen _; exact ⟨by simp, List.nodup_nil⟩
  | cons n rest ih =>
    intro seen h
    unfold firstDupFrom at h
    split at h
    · exact Option.noConfusion h
    · rename_i hn
      obtain ⟨hnotin, hnd⟩ := ih (n :: seen) h
      have hn' : n ∉ seen := by simpa using hn
      refine ⟨?_, ?_⟩
      · intro x hx
        rcases List.mem_cons.mp hx with rfl | hx2
        · exact hn'
        · intro hxs
          exact hnotin x hx2 (List.mem_cons_of_mem n hxs)
      · refine List.nodup_cons.mpr ⟨?_, hnd⟩
        intro hnr
        exact hnotin n hnr (List.mem_cons_self n seen)

/-- A `[tool]` table missing one of its three required fields fails to
deserialize. -/
theorem ToolMeta_deserialize_missing {tkvs : List (String × Value)}
    (h : tget tkvs "name" = none ∨ tget tkvs "version" = none ∨
      tget tkvs "description" = none) :
    ∃ e, ToolMeta.deserialize (.table tkvs) = .error e := by
  rcases h with h | h | h
  · exact ⟨"missing field name", by simp [ToolMeta.deserialize, reqStr_none h]⟩
  · cases hn : reqStr tkvs "name" with
    | error e => exact ⟨e, by simp [ToolMeta.deserialize, hn]⟩
    | ok n =>
      exact ⟨"missing field version",
        by simp [ToolMeta.deserialize, hn, reqStr_none h]⟩
  · cases hn : reqStr tkvs "name" with
    | error e => exact ⟨e, by simp [ToolMeta.deserialize, hn]⟩
    | ok n =>
      cases hv : reqStr tkvs "version" with
      | error e => exact ⟨e, by simp [ToolMeta.deserialize, hn, hv]⟩
      | ok v =>
        exact ⟨"missing field description",
          by simp [ToolMeta.deserialize, hn, hv, reqStr_none h]⟩

/-- An `[exec]` table missing `binary` fails to deserialize. -/
theorem ExecConfig_deserialize_missing {ekvs : List (String × Value)}
    (h : tget ekvs "binary" = none) :
    ExecConfig.deserialize (.table ekvs) = .error ("missing field binary") := by
  simp [ExecConfig.deserialize, reqStr_none h]

/-- A `[transport]` table missing `preferred` or `device_required` fails
to deserialize. -/
theorem TransportConfig_deserialize_missing {tkvs : List (String × Value)}
    (h : tget tkvs "preferred" = none ∨ tget tkvs "device_required" = none) :
    ∃ e, TransportConfig.deserialize (.table tkvs) = .error e := by
  rcases h with h | h
  · exact ⟨"missing field preferred",
      by simp [TransportConfig.deserialize, reqStr_none h]⟩
  · cases hp : reqStr tkvs "preferred" with
    | error e => exact ⟨e, by simp [TransportConfig.deserialize, hp]⟩
    | ok p =>
      exact ⟨"missing field device_required",
        by simp [TransportConfig.deserialize, hp, reqBool_none h]⟩

theorem reqStr_cons_ne {k key : String} (x : Value) (kvs : List (String × Value))
    (h : k ≠ key) : reqStr ((k, x) :: kvs) key = reqStr kvs key := by
  simp [reqStr, tget_cons_ne x kvs h]

theorem reqBool_cons_ne {k key : String} (x : Value) (kvs : List (String × Value))
    (h : k ≠ key) : reqBool ((k, x) :: kvs) key = reqBool kvs key := by
  simp [reqBool, tget_cons_ne x kvs h]

/-- `ToolMeta` deserialization ignores a key outside its field set. -/
theorem ToolMeta_deserialize_cons_ne {k : String} (x : Value)
    (kvs : List (String × Value))
    (h : k ∉ (["name", "version", "description"] : List String)) :
    ToolMeta.deserialize (.table ((k, x) :: kvs)) =
      ToolMeta.deserialize (.table kvs) := by
  obtain ⟨h1, h2, h3⟩ : k ≠ "name" ∧ k ≠ "version" ∧ k ≠ "description" := by
    simpa [not_or] using h
  simp [ToolMeta.deserialize, reqStr_cons_ne x kvs h1, reqStr_cons_ne x kvs h2,
    reqStr_cons_ne x kvs h3]

/-- `ExecConfig` deserialization ignores a key outside its field set. -/
theorem ExecConfig_deserialize_cons_ne {k : String} (x : Value)
    (kvs : List (String × Value)) (h : k ∉ (["binary"] : List String)) :
    ExecConfig.deserialize (.table ((k, x) :: kvs)) =
      ExecConfig.deserialize (.table kvs) := by
  have h1 : k ≠ "binary" := by simpa using h
  simp [ExecConfig.deserialize, reqStr_cons_ne x kvs h1]

/-- `TransportConfig` deserialization ignores a key outside its field set. -/
theorem TransportConfig_deserialize_cons_ne {k : String} (x : Value)
    (kvs : List (String × Value))
    (h : k ∉ (["preferred", "device_required"] : List String)) :
    TransportConfig.deserialize (.table ((k, x) :: kvs)) =
      TransportConfig.deserialize (.table kvs) := by
  obtain ⟨h1, h2⟩ : k ≠ "preferred" ∧ k ≠ "device_required" := by
    simpa [not_or] using h
  simp [TransportConfig.deserialize, reqStr_cons_ne x kvs h1,
    reqBool_cons_ne x kvs h2]

/-- `ParameterDef` deserialization ignores a key outside its field set. -/
theorem ParameterDef_deserialize_cons_ne {k : String} (x : Value)
    (kvs : List (String × Value))
    (h : k ∉ (["name", "type", "description", "required", "default"] :
      List String)) :
    ParameterDef.deserialize (.table ((k, x) :: kvs)) =
      ParameterDef.deserialize (.table kvs) := by
  obtain ⟨h1, h2, h3, h4, h5⟩ :
      k ≠ "name" ∧ k ≠ "type" ∧ k ≠ "description" ∧ k ≠ "required" ∧
        k ≠ "default" := by
    simpa [not_or] using h
  simp [ParameterDef.deserialize, reqStr_cons_ne x kvs h1,
    reqStr_cons_ne x kvs h2, reqStr_cons_ne x kvs h3, reqBool_cons_ne x kvs h4,
    tget_cons_ne x kvs h5]

/-- `ToolManifest` deserialization ignores a top-level key outside its
field set. -/
theorem ToolManifest_deserialize_cons_ne {k : String} (x : Value)
    (kvs : List (String × Value))
    (h : k ∉ (["tool", "exec", "transport", "parameters"] : List String)) :
    ToolManifest.deserialize (.table ((k, x) :: kvs)) =
      ToolManifest.deserialize (.table kvs) := by
  obtain ⟨h1, h2, h3, h4⟩ :
      k ≠ "tool" ∧ k ≠ "exec" ∧ k ≠ "transport" ∧ k ≠ "parameters" := by
    simpa [not_or] using h
  simp [ToolManifest.deserialize, toolField, execField, transportField,
    paramsField, tget_cons_ne x kvs h1, tget_cons_ne x kvs h2,
    tget_cons_ne x kvs h3, tget_cons_ne x kvs h4]

/-- The required-name list accumulated by the projector fold is the
incoming accumulator followed by the names of the required parameters,
in declared order. -/
theorem foldl_projectStep_required (ps : List ParameterDef) :
    ∀ acc : ToolSchema,
      (ps.foldl projectStep acc).required =
        acc.required ++ (ps.filter (fun p => p.required)).map (fun p => p.name) := by
  induction ps with
  | nil => intro acc; simp
  | cons p ps ih =>
    intro acc
    rw [List.foldl_cons, ih]
    cases hp : p.required with
    | true => simp [projectStep, hp, List.filter_cons]
    | false => simp [projectStep, hp, List.filter_cons]

/-- When every declared parameter is satisfied by the argument map,
normalization of the parameter list succeeds. -/
theorem normalizeParams_ok (args : List (String × Value)) :
    ∀ ps : List ParameterDef, ps.all (paramArgOk args) = true →
      ∃ res, normalizeParams args ps = .ok res := by
  intro ps
  induction ps with
  | nil => intro _; exact ⟨[], rfl⟩
  | cons p ps ih =>
    intro h
    rw [List.all_cons, Bool.and_eq_true] at h
    obtain ⟨hp, hps⟩ := h
    obtain ⟨res, hres⟩ := ih hps
    cases ht : tget args p.name with
    | none =>
      simp only [paramArgOk, ht, Bool.not_eq_true'] at hp
      cases hd : p.default with
      | some d =>
        exact ⟨(p.name, d) :: res, by simp [normalizeParams, ht, hp, hd, hres]⟩
      | none => exact ⟨res, by simp [normalizeParams, ht, hp, hd, hres]⟩
    | some v =>
      simp only [paramArgOk, ht] at hp
      exact ⟨(p.name, v) :: res, by simp [normalizeParams, ht, hp, hres]⟩

/-- If normalization succeeds, an optional parameter with a default that
the caller omitted ends up bound to its default in the result (parameter
names assumed unique, as validation guarantees). -/
theorem normalizeParams_default_lookup (args : List (String × Value)) :
    ∀ (ps : List ParameterDef) (res : List (String × Value))
      (p : ParameterDef) (D : Value),
      normalizeParams args ps = .ok res → p ∈ ps →
      (ps.map (fun q => q.name)).Nodup →
      p.required = false → p.default = some D → tget args p.name = none →
      tget res p.name = some D := by
  intro ps
  induction ps with
  | nil => intro res p D _ hmem; cases hmem
  | cons q ps ih =>
    intro res p D hok hmem hnd hreq hdef habs
    rw [List.map_cons, List.nodup_cons] at hnd
    obtain ⟨hqn, hnd'⟩ := hnd
    rcases List.mem_cons.mp hmem with rfl | hmem2
    · simp only [normalizeParams, habs, hreq, hdef, Bool.false_eq_true,
        if_false] at hok
      cases hrec : normalizeParams args ps with
      | ok res2 =>
        rw [hrec] at hok
        simp only [Except.ok.injEq] at hok
        subst hok
        simp [tget]
      | error e =>
        rw [hrec] at hok
        exact Except.noConfusion hok
    · have hpname : q.name ≠ p.name := by
        intro hcontra
        apply hqn
        rw [hcontra]
        exact List.mem_map_of_mem (fun r => r.name) hmem2
      cases htq : tget args q.name with
      | none =>
        simp only [normalizeParams, htq] at hok
        cases hq : q.required with
        | true => rw [hq] at hok; exact Except.noConfusion hok
        | false =>
          rw [hq] at hok
          simp only [Bool.false_eq_true, if_false] at hok
          cases hqd : q.default with
          | some d =>
            rw [hqd] at hok
            cases hrec : normalizeParams args ps with
            | ok res2 =>
              rw [hrec] at hok
              simp only [Except.ok.injEq] at hok
              subst hok
              rw [tget_cons_ne _ _ hpname]
              exact ih res2 p D hrec hmem2 hnd' hreq hdef habs
            | error e =>
              rw [hrec] at hok
              exact Except.noConfusion hok
          | none =>
            rw [hqd] at hok
            exact ih res p D hok hmem2 hnd' hreq hdef habs
      | some v =>
        simp only [normalizeParams, htq] at hok
        cases hv : valueMatchesType q.type v with
        | false => rw [hv] at hok; exact Except.noConfusion hok
        | true =>
          rw [hv] at hok
          simp only [if_true] at hok
          cases hrec : normalizeParams args ps with
          | ok res2 =>
            rw [hrec] at hok
            simp only [Except.ok.injEq] at hok
            subst hok
            rw [tget_cons_ne _ _ hpname]
            exact ih res2 p D hrec hmem2 hnd' hreq hdef habs
          | error e =>
            rw [hrec] at hok
            exact Except.noConfusion hok

/-- C1: for every manifest text containing a parameter whose `type` value
is not one of the closed enumeration (string, integer, boolean), loading
the manifest fails with a validation error that names the offending
parameter and the unrecognized type value. -/
theorem C1_unknown_type_fails_naming_offender (v : Value) (m : ToolManifest)
    (hdes : ToolManifest.deserialize v = .ok m)
    (hbad : ∃ q ∈ m.parameters, allowedTypes.contains q.type = false) :
    ∃ p ∈ m.parameters, allowedTypes.contains p.type = false ∧
      loadManifest v = .error (.validation (.unknownType p.name p.type)) := by
  obtain ⟨q, hq, hqt⟩ := hbad
  have hsome :
      (m.parameters.find? (fun p => !(allowedTypes.contains p.type))).isSome := by
    rw [List.find?_isSome]
    exact ⟨q, hq, by simpa using hqt⟩
  obtain ⟨p, hp⟩ := Option.isSome_iff_exists.mp hsome
  have hpbad : allowedTypes.contains p.type = false := by
    have hfs := List.find?_some hp
    simpa using hfs
  have hfbt : findBadType m.parameters = some p := hp
  refine ⟨p, List.mem_of_find?_eq_some hp, hpbad, ?_⟩
  simp [loadManifest, hdes, validateManifest, hfbt]

/-- C1 witness: a manifest whose single parameter has type `"number"` is
rejected naming `device` and `number`. -/
theorem C1_witness :
    ∃ p ∈ (mkManifest [mkParam "device" "number" true none]).parameters,
      allowedTypes.contains p.type = false ∧
        loadManifest (mkManifestV [.table (mkParamKvs "device" "number" true)]) =
          .error (.validation (.unknownType p.name p.type)) :=
  C1_unknown_type_fails_naming_offender _ _ rfl
    ⟨mkParam "device" "number" true none, by simp [mkManifest], rfl⟩

/-- C2: a manifest declaring two parameters with the same name fails to
load with a validation error; when the per-parameter checks pass, it is
the duplicate-name error, naming the first duplicate found. -/
theorem C2_duplicate_name_fails (v : Value) (m : ToolManifest)
    (hdes : ToolManifest.deserialize v = .ok m)
    (hdup : ¬ (m.parameters.map (fun p => p.name)).Nodup) :
    (∃ e, loadManifest v = .error (.validation e)) ∧
      ∃ d, firstDuplicate (m.parameters.map (fun p => p.name)) = some d ∧
        (findBadType m.parameters = none → findBadDefault m.parameters = none →
          findRequiredWithDefault m.parameters = none →
          loadManifest v = .error (.validation (.duplicateName d))) := by
  obtain ⟨d, hd⟩ :
      ∃ d, firstDuplicate (m.parameters.map (fun p => p.name)) = some d := by
    cases hfd : firstDuplicate (m.parameters.map (fun p => p.name)) with
    | none => exact absurd (firstDupFrom_none _ [] hfd).2 hdup
    | some d => exact ⟨d, rfl⟩
  constructor
  · cases hv : validateManifest m with
    | ok m' =>
      obtain ⟨-, -, -, -, h4⟩ := validateManifest_ok hv
      rw [h4] at hd
      exact Option.noConfusion hd
    | error e => exact ⟨e, by simp [loadManifest, hdes, hv]⟩
  · exact ⟨d, hd, fun h1 h2 h3 => by
      simp [loadManifest, hdes, validateManifest, h1, h2, h3, hd]⟩

/-- C2 witness: two parameters both named `device` are rejected with a
duplicate-name error naming `device`. -/
theorem C2_witness :
    (∃ e, loadManifest (mkManifestV
        [.table (mkParamKvs "device" "string" true),
         .table (mkParamKvs "device" "string" true)]) =
      .error (.validation e)) ∧
      ∃ d, firstDuplicate ((mkManifest [mkParam "device" "string" true none,
          mkParam "device" "string" true none]).parameters.map
            (fun p => p.name)) = some d ∧
        (findBadType (mkManifest [mkParam "device" "string" true none,
            mkParam "device" "string" true none]).parameters = none →
          findBadDefault (mkManifest [mkParam "device" "string" true none,
            mkParam "device" "string" true none]).parameters = none →
          findRequiredWithDefault (mkManifest [mkParam "device" "string" true none,
            mkParam "device" "string" true none]).parameters = none →
          loadManifest (mkManifestV
            [.table (mkParamKvs "device" "string" true),
             .table (mkParamKvs "device" "string" true)]) =
            .error (.validation (.duplicateName d))) :=
  C2_duplicate_name_fails _ _ rfl (by decide)

/-- C3: a parameter declared `required = true` together with a present
`default` makes loading fail with a validation error. -/
theorem C3_required_with_default_fails (v : Value) (m : ToolManifest)
    (hdes : ToolManifest.deserialize v = .ok m)
    (hbad : ∃ p ∈ m.parameters, p.required = true ∧ p.default.isSome = true) :
    ∃ e, loadManifest v = .error (.validation e) := by
  obtain ⟨p, hp, hreq, hdef⟩ := hbad
  cases hv : validateManifest m with
  | ok m' =>
    obtain ⟨-, -, -, h3, -⟩ := validateManifest_ok hv
    rw [findRequiredWithDefault, List.find?_eq_none] at h3
    exact absurd (by simp [hreq, hdef]) (h3 p hp)
  | error e => exact ⟨e, by simp [loadManifest, hdes, hv]⟩

/-- C3 witness: a required parameter carrying a default is rejected. -/
theorem C3_witness :
    ∃ e, loadManifest (mkManifestV
      [.table (mkParamDefKvs "device" "string" true (.str "x"))]) =
        .error (.validation e) :=
  C3_required_with_default_fails _
    (mkManifest [mkParam "device" "string" true (some (.str "x"))]) rfl
    ⟨mkParam "device" "string" true (some (.str "x")), by simp [mkManifest],
      rfl, rfl⟩

/-- C4: a parameter whose `default` value does not have the shape of the
declared `type` makes loading fail with a validation error. -/
theorem C4_default_shape_mismatch_fails (v : Value) (m : ToolManifest)
    (hdes : ToolManifest.deserialize v = .ok m)
    (hbad : ∃ p ∈ m.parameters, ∃ d, p.default = some d ∧
      valueMatchesType p.type d = false) :
    ∃ e, loadManifest v = .error (.validation e) := by
  obtain ⟨p, hp, d, hd, hmis⟩ := hbad
  cases hv : validateManifest m with
  | ok m' =>
    obtain ⟨-, -, h2, -, -⟩ := validateManifest_ok hv
    rw [findBadDefault, List.find?_eq_none] at h2
    exact absurd (by simp [hd, hmis]) (h2 p hp)
  | error e => exact ⟨e, by simp [loadManifest, hdes, hv]⟩

/-- C4 witness: a string default under `type = "integer"` is rejected. -/
theorem C4_witness :
    ∃ e, loadManifest (mkManifestV
      [.table (mkParamDefKvs "bus" "integer" false (.str "zero"))]) =
        .error (.validation e) :=
  C4_default_shape_mismatch_fails _
    (mkManifest [mkParam "bus" "integer" false (some (.str "zero"))]) rfl
    ⟨mkParam "bus" "integer" false (some (.str "zero")), by simp [mkManifest],
      .str "zero", rfl, rfl⟩

/-- C5: a manifest whose `[tool]` block misses `name`, `version` or
`description`, or whose `[exec]` block misses `binary`, fails to parse
(no default is synthesized). -/
theorem C5_missing_required_field_fails (kvs tkvs ekvs : List (String × Value))
    (htool : tget kvs "tool" = some (.table tkvs))
    (hexec : tget kvs "exec" = some (.table ekvs))
    (hmiss : tget tkvs "name" = none ∨ tget tkvs "version" = none ∨
      tget tkvs "description" = none ∨ tget ekvs "binary" = none) :
    ∃ e, ToolManifest.deserialize (.table kvs) = .error e := by
  rcases hmiss with h | h | h | h
  · obtain ⟨e, he⟩ := ToolMeta_deserialize_missing (Or.inl h)
    exact ⟨e, by simp [ToolManifest.deserialize, toolField, htool, he]⟩
  · obtain ⟨e, he⟩ := ToolMeta_deserialize_missing (Or.inr (Or.inl h))
    exact ⟨e, by simp [ToolManifest.deserialize, toolField, htool, he]⟩
  · obtain ⟨e, he⟩ := ToolMeta_deserialize_missing (Or.inr (Or.inr h))
    exact ⟨e, by simp [ToolManifest.deserialize, toolField, htool, he]⟩
  · cases hm : toolField kvs with
    | error e => exact ⟨e, by simp [ToolManifest.deserialize, hm]⟩
    | ok t =>
      exact ⟨"missing field binary", by
        simp [ToolManifest.deserialize, hm, execField, hexec,
          ExecConfig_deserialize_missing h]⟩

/-- C5 witness: omitting `tool.name` fails the parse. -/
theorem C5_witness :
    ∃ e, ToolManifest.deserialize (.table
      [("tool", .table
          [("version", .str "0.1.0"), ("description", .str "No-op tool")]),
       ("exec", .table noopExecKvs)]) = .error e :=
  C5_missing_required_field_fails _ _ _ rfl rfl (Or.inl rfl)

/-- C6: a manifest text with only valid `[tool]` and `[exec]` blocks (no
`[[parameters]]`, no `[transport]`) parses into a manifest with absent
transport hint and empty parameter sequence. -/
theorem C6_tool_exec_only_parses_empty (kvs : List (String × Value))
    (tv ev : Value) (t : ToolMeta) (ec : ExecConfig)
    (htool : tget kvs "tool" = some tv)
    (hT : ToolMeta.deserialize tv = .ok t)
    (hexec : tget kvs "exec" = some ev)
    (hE : ExecConfig.deserialize ev = .ok ec)
    (htr : tget kvs "transport" = none)
    (hpar : tget kvs "parameters" = none) :
    ToolManifest.deserialize (.table kvs) = .ok ⟨t, ec, none, []⟩ := by
  simp [ToolManifest.deserialize, toolField, execField, transportField,
    paramsField, htool, hT, hexec, hE, htr, hpar]

/-- C6 witness: the `noop` test manifest parses with no transport and no
parameters. -/
theorem C6_witness :
    ToolManifest.deserialize (.table noopKvs) = .ok noopManifest :=
  C6_tool_exec_only_parses_empty noopKvs _ _ noopMeta noopExec
    rfl rfl rfl rfl rfl rfl

/-- C7: the Schema Projector's required-name list holds exactly the names
of the parameters declared `required = true`, in declared order, and no
other names. -/
theorem C7_required_names_exact (m : ToolManifest) :
    (projectSchema m).required =
      (m.parameters.filter (fun p => p.required)).map (fun p => p.name) := by
  rw [projectSchema, foldl_projectStep_required]
  simp

/-- C8: for a validated manifest with an optional parameter carrying
default `D`, normalizing a compatible argument map that omits the
parameter succeeds and binds the parameter to `D` in the result. -/
theorem C8_optional_default_inserted (m m' : ToolManifest) (p : ParameterDef)
    (D : Value) (args : List (String × Value))
    (hval : validateManifest m = .ok m')
    (hmem : p ∈ m.parameters) (hreq : p.required = false)
    (hdef : p.default = some D) (habs : tget args p.name = none)
    (hcompat : argsCompatible m.parameters args = true) :
    ∃ res, normalizeArgs m args = .ok res ∧ tget res p.name = some D := by
  rw [argsCompatible, Bool.and_eq_true] at hcompat
  obtain ⟨hall, hknown⟩ := hcompat
  obtain ⟨res, hres⟩ := normalizeParams_ok args m.parameters hall
  have hnd : (m.parameters.map (fun q => q.name)).Nodup := by
    obtain ⟨-, -, -, -, h4⟩ := validateManifest_ok hval
    exact (firstDupFrom_none _ [] h4).2
  have hfind : args.find?
      (fun kv => !(m.parameters.any (fun q => q.name = kv.1))) = none := by
    rw [List.find?_eq_none]
    intro kv hkv
    simp only [List.all_eq_true] at hknown
    simp [hknown kv hkv]
  refine ⟨res, ?_, normalizeParams_default_lookup args m.parameters res p D
    hres hmem hnd hreq hdef habs⟩
  simp [normalizeArgs, hfind, hres]

/-- C8 witness: the `duty` parameter (optional, default 50) omitted from
an empty argument map comes back bound to 50. -/
theorem C8_witness :
    ∃ res, normalizeArgs
        (mkManifest [mkParam "duty" "integer" false (some (.int 50))]) [] =
      .ok res ∧ tget res "duty" = some (.int 50) :=
  C8_optional_default_inserted _ _
    (mkParam "duty" "integer" false (some (.int 50))) (.int 50) []
    rfl (by simp [mkManifest]) rfl rfl rfl rfl

/-- C9: the derived deserializers carry no `deny_unknown_fields`: adding a
key outside the recognized field set of any block (top level, `[tool]`,
`[exec]`, `[transport]`, or a `[[parameters]]` entry) leaves a successful
parse unchanged. -/
theorem C9_unknown_keys_ignored :
    (∀ (kvs : List (String × Value)) (m : ToolManifest) (k : String) (x : Value),
      k ∉ (["tool", "exec", "transport", "parameters"] : List String) →
      ToolManifest.deserialize (.table kvs) = .ok m →
      ToolManifest.deserialize (.table ((k, x) :: kvs)) = .ok m) ∧
    (∀ (kvs : List (String × Value)) (t : ToolMeta) (k : String) (x : Value),
      k ∉ (["name", "version", "description"] : List String) →
      ToolMeta.deserialize (.table kvs) = .ok t →
      ToolMeta.deserialize (.table ((k, x) :: kvs)) = .ok t) ∧
    (∀ (kvs : List (String × Value)) (ec : ExecConfig) (k : String) (x : Value),
      k ∉ (["binary"] : List String) →
      ExecConfig.deserialize (.table kvs) = .ok ec →
      ExecConfig.deserialize (.table ((k, x) :: kvs)) = .ok ec) ∧
    (∀ (kvs : List (String × Value)) (tc : TransportConfig) (k : String)
        (x : Value),
      k ∉ (["preferred", "device_required"] : List String) →
      TransportConfig.deserialize (.table kvs) = .ok tc →
      TransportConfig.deserialize (.table ((k, x) :: kvs)) = .ok tc) ∧
    (∀ (kvs : List (String × Value)) (p : ParameterDef) (k : String) (x : Value),
      k ∉ (["name", "type", "description", "required", "default"] : List String) →
      ParameterDef.deserialize (.table kvs) = .ok p →
      ParameterDef.deserialize (.table ((k, x) :: kvs)) = .ok p) := by
  refine ⟨?_, ?_, ?_, ?_, ?_⟩
  · intro kvs m k x hk hok
    rw [ToolManifest_deserialize_cons_ne x kvs hk]
    exact hok
  · intro kvs t k x hk hok
    rw [ToolMeta_deserialize_cons_ne x kvs hk]
    exact hok
  · intro kvs ec k x hk hok
    rw [ExecConfig_deserialize_cons_ne x kvs hk]
    exact hok
  · intro kvs tc k x hk hok
    rw [TransportConfig_deserialize_cons_ne x kvs hk]
    exact hok
  · intro kvs p k x hk hok
    rw [ParameterDef_deserialize_cons_ne x kvs hk]
    exact hok

/-- C9 witness: an `extra` key added to each block of the test manifests
leaves every parse result unchanged. -/
theorem C9_witness :
    ToolManifest.deserialize (.table (("extra", .int 1) :: noopKvs)) =
        .ok noopManifest ∧
      ToolMeta.deserialize (.table (("extra", .int 1) :: noopToolKvs)) =
        .ok noopMeta ∧
      ExecConfig.deserialize (.table (("extra", .int 1) :: noopExecKvs)) =
        .ok noopExec ∧
      TransportConfig.deserialize
          (.table (("extra", .int 1) :: serialTransportKvs)) =
        .ok ⟨"serial", true⟩ ∧
      ParameterDef.deserialize
          (.table (("extra", .int 1) :: mkParamKvs "device" "string" true)) =
        .ok (mkParam "device" "string" true none) :=
  ⟨C9_unknown_keys_ignored.1 noopKvs noopManifest "extra" (.int 1)
      (by decide) rfl,
   C9_unknown_keys_ignored.2.1 noopToolKvs noopMeta "extra" (.int 1)
      (by decide) rfl,
   C9_unknown_keys_ignored.2.2.1 noopExecKvs noopExec "extra" (.int 1)
      (by decide) rfl,
   C9_unknown_keys_ignored.2.2.2.1 serialTransportKvs ⟨"serial", true⟩ "extra"
      (.int 1) (by decide) rfl,
   C9_unknown_keys_ignored.2.2.2.2 (mkParamKvs "device" "string" true)
      (mkParam "device" "string" true none) "extra" (.int 1) (by decide) rfl⟩

/-- C10: inside a present `[transport]` block both fields are mandatory —
omitting `preferred` or `device_required` fails the parse — while omitting
the whole block parses with an absent transport hint. -/
theorem C10_transport_fields_mandatory :
    (∀ (kvs tkvs : List (String × Value)),
      tget kvs "transport" = some (.table tkvs) →
      (tget tkvs "preferred" = none ∨ tget tkvs "device_required" = none) →
      ∃ e, ToolManifest.deserialize (.table kvs) = .error e) ∧
    (∀ (kvs : List (String × Value)) (m : ToolManifest),
      tget kvs "transport" = none →
      ToolManifest.deserialize (.table kvs) = .ok m → m.transport = none) := by
  constructor
  · intro kvs tkvs htr hmiss
    obtain ⟨e0, he0⟩ := TransportConfig_deserialize_missing hmiss
    have htf : transportField kvs = .error e0 := by
      simp [transportField, htr, he0]
    cases h1 : toolField kvs with
    | error e => exact ⟨e, by simp [ToolManifest.deserialize, h1]⟩
    | ok t =>
      cases h2 : execField kvs with
      | error e => exact ⟨e, by simp [ToolManifest.deserialize, h1, h2]⟩
      | ok ec => exact ⟨e0, by simp [ToolManifest.deserialize, h1, h2, htf]⟩
  · intro kvs m htr hok
    have htf : transportField kvs = .ok none := by simp [transportField, htr]
    simp only [ToolManifest.deserialize] at hok
    cases h1 : toolField kvs with
    | error e => rw [h1] at hok; simp at hok
    | ok t =>
      rw [h1] at hok
      cases h2 : execField kvs with
      | error e => rw [h2] at hok; simp at hok
      | ok ec =>
        rw [h2, htf] at hok
        cases h4 : paramsField kvs with
        | error e => rw [h4] at hok; simp at hok
        | ok ps =>
          rw [h4] at hok
          simp only [Except.ok.injEq] at hok
          rw [← hok]

/-- C10 witness: a `[transport]` block missing `preferred` fails to parse;
the transport-free `noop` manifest parses with `transport = none`. -/
theorem C10_witness :
    (∃ e, ToolManifest.deserialize (.table (noopKvs ++
        [("transport", .table [("device_required", .bool true)])])) =
      .error e) ∧ noopManifest.transport = none :=
  ⟨C10_transport_fields_mandatory.1 _ [("device_required", .bool true)]
      rfl (Or.inl rfl),
   C10_transport_fields_mandatory.2 noopKvs noopManifest rfl rfl⟩
